import Mathlib

/- Shallow embedding of src/server/repo_to_png/mermaid_to_png.py:
   extraction of component block positions from a Mermaid-generated SVG
   document (functions _strip_ns, _parse_transform, _get_rect_bbox,
   _get_polygon_bbox, _get_group_bbox, _get_text_content,
   svg_to_component_positions and its inner helpers svg_to_png and walk).
   Real arithmetic is modelled with ℚ; the ValueError a Python float()
   call can raise is modelled by Except Unit. -/

/-- ASCII whitespace as recognized by Python str.strip and the regex class \s. -/
def isPySpace (c : Char) : Bool :=
  c == ' ' || c == '\t' || c == '\n' || c == '\r' || c == '\x0b' || c == '\x0c'

/-- Characters matched by the regex class [-\d.] used for numeric tokens. -/
def isNumChar (c : Char) : Bool :=
  c == '-' || c == '.' || c.isDigit

/-- Python str.strip(): drop leading and trailing whitespace. -/
def pyStrip (cs : List Char) : List Char :=
  ((cs.dropWhile isPySpace).reverse.dropWhile isPySpace).reverse

/-- Python str.strip() at the String level. -/
def pyStripStr (s : String) : String :=
  String.mk (pyStrip s.toList)

/-- Fuelled worker for Python str.split() with no argument. -/
def pySplitWsGo : Nat → List Char → List (List Char)
  | 0, _ => []
  | n + 1, cs =>
    let cs1 := cs.dropWhile isPySpace
    match cs1 with
    | [] => []
    | _ =>
      (cs1.takeWhile fun c => !(isPySpace c)) ::
        pySplitWsGo n (cs1.dropWhile fun c => !(isPySpace c))

/-- Python str.split() with no argument: split on whitespace runs, discarding
    empty tokens. -/
def pySplitWs (cs : List Char) : List (List Char) :=
  pySplitWsGo (cs.length + 1) cs

/-- Characters matched by the regex class [\s,] used by re.split in
    _get_polygon_bbox. -/
def isSepWsComma (c : Char) : Bool := isPySpace c || c == ','

/-- Fuelled worker for re.split with a one-or-more separator class. -/
def reSplitGo : Nat → List Char → List (List Char)
  | 0, _ => []
  | n + 1, cs =>
    let tok := cs.takeWhile fun c => !(isSepWsComma c)
    let rest := cs.dropWhile fun c => !(isSepWsComma c)
    match rest with
    | [] => [tok]
    | _ => tok :: reSplitGo n (rest.dropWhile isSepWsComma)

/-- Python re.split of a string on the pattern [\s,]+ : separator runs are
    collapsed, and a leading or trailing separator contributes an empty token. -/
def reSplitWsComma (cs : List Char) : List (List Char) :=
  reSplitGo (cs.length + 1) cs

/-- Value of a list of decimal digit characters. -/
def digitsVal (cs : List Char) : Nat :=
  cs.foldl (fun a c => a * 10 + (c.toNat - '0'.toNat)) 0

/-- Model of Python float(str) on sign/digit/dot/exponent literals (the inputs
    arising in this module are substrings of attribute values; inf, nan and
    underscore literals never occur there). Returns none where float() raises
    ValueError. -/
def pyFloat? (cs : List Char) : Option ℚ :=
  let s := pyStrip cs
  let sgnBody : ℚ × List Char :=
    match s with
    | '+' :: r => (1, r)
    | '-' :: r => (-1, r)
    | _ => (1, s)
  let sgn := sgnBody.1
  let s1 := sgnBody.2
  let ip := s1.takeWhile Char.isDigit
  let r2 := s1.dropWhile Char.isDigit
  let fpPart : List Char × List Char × Bool :=
    match r2 with
    | '.' :: r3 =>
      (r3.takeWhile Char.isDigit, r3.dropWhile Char.isDigit,
        !ip.isEmpty || !(r3.takeWhile Char.isDigit).isEmpty)
    | _ => ([], r2, !ip.isEmpty)
  let fp := fpPart.1
  let r4 := fpPart.2.1
  if !fpPart.2.2 then none
  else
    let mant : ℚ := (digitsVal ip : ℚ) + (digitsVal fp : ℚ) / (10 : ℚ) ^ fp.length
    match r4 with
    | [] => some (sgn * mant)
    | e :: r5 =>
      if e == 'e' || e == 'E' then
        let esgnBody : Int × List Char :=
          match r5 with
          | '+' :: r7 => (1, r7)
          | '-' :: r7 => (-1, r7)
          | _ => (1, r5)
        let ed := esgnBody.2.takeWhile Char.isDigit
        let r8 := esgnBody.2.dropWhile Char.isDigit
        if ed.isEmpty || !r8.isEmpty then none
        else some (sgn * mant * (10 : ℚ) ^ (esgnBody.1 * (digitsVal ed : Int)))
      else none

/-- Deterministic matcher for the regex fragment `\s*[, ]\s*([-\d.]+)` as it
    behaves under backtracking of the leading `\s*` (the class [, ] may consume
    either a comma after the whitespace run or one space inside it): returns the
    captured numeric token and the remaining input, or none when the regex
    engine cannot match the fragment here. -/
def parseSepNum (cs : List Char) : Option (List Char × List Char) :=
  let ws := cs.takeWhile isPySpace
  let rest := cs.dropWhile isPySpace
  match rest with
  | ',' :: r1 =>
    let r2 := r1.dropWhile isPySpace
    let n := r2.takeWhile isNumChar
    if n.isEmpty then none else some (n, r2.dropWhile isNumChar)
  | c :: _ =>
    if isNumChar c && ws.contains ' ' then
      some (rest.takeWhile isNumChar, rest.dropWhile isNumChar)
    else none
  | [] => none

/-- Tests whether the regex fragment `\s*\)` matches here. -/
def closeParen? (cs : List Char) : Bool :=
  match cs.dropWhile isPySpace with
  | ')' :: _ => true
  | _ => false

/-- Attempt of the regex `translate\s*\(\s*([-\d.]+)\s*(?:[, ]\s*([-\d.]+)\s*)?\)`
    anchored at the start of the input; returns the captured groups. -/
def tryTranslateAt (cs : List Char) : Option (List Char × Option (List Char)) :=
  if "translate".toList.isPrefixOf cs then
    let r0 := cs.drop 9
    match r0.dropWhile isPySpace with
    | '(' :: r2 =>
      let r3 := r2.dropWhile isPySpace
      let n1 := r3.takeWhile isNumChar
      if n1.isEmpty then none
      else
        let r4 := r3.dropWhile isNumChar
        match parseSepNum r4 with
        | some (n2, r5) =>
          if closeParen? r5 then some (n1, some n2)
          else if closeParen? r4 then some (n1, none) else none
        | none =>
          if closeParen? r4 then some (n1, none) else none
    | _ => none
  else none

/-- re.search for the translate regex: leftmost position where the pattern
    matches; a failed attempt resumes the scan one character later. -/
def findTranslate : List Char → Option (List Char × Option (List Char))
  | [] => none
  | c :: rest =>
    match tryTranslateAt (c :: rest) with
    | some g => some g
    | none => findTranslate rest

/-- Matcher for a fixed number of further `\s*[, ]\s*([-\d.]+)` fragments. -/
def parseSepNums : Nat → List Char → Option (List (List Char) × List Char)
  | 0, cs => some ([], cs)
  | k + 1, cs =>
    match parseSepNum cs with
    | some (n, r) =>
      match parseSepNums k r with
      | some (ns, r2) => some (n :: ns, r2)
      | none => none
    | none => none

/-- Attempt of the regex for matrix(a, b, c, d, e, f) anchored at the start of
    the input; returns the fifth and sixth captured tokens, the only ones the
    code converts to numbers. -/
def tryMatrixAt (cs : List Char) : Option (List Char × List Char) :=
  if "matrix".toList.isPrefixOf cs then
    let r0 := cs.drop 6
    match r0.dropWhile isPySpace with
    | '(' :: r2 =>
      let r3 := r2.dropWhile isPySpace
      let n1 := r3.takeWhile isNumChar
      if n1.isEmpty then none
      else
        match parseSepNums 5 (r3.dropWhile isNumChar) with
        | some (ns, r5) =>
          if closeParen? r5 then
            match ns with
            | [_, _, _, n5, n6] => some (n5, n6)
            | _ => none
          else none
        | none => none
    | _ => none
  else none

/-- re.search for the matrix regex. -/
def findMatrix : List Char → Option (List Char × List Char)
  | [] => none
  | c :: rest =>
    match tryMatrixAt (c :: rest) with
    | some g => some g
    | none => findMatrix rest

/-- Embedding of _parse_transform. The Except layer models the ValueError that
    escapes when float() is applied to a matched token that is not a valid
    number (the source does not catch it). -/
def parse_transform (t : Option String) : Except Unit (ℚ × ℚ) :=
  match t with
  | none => .ok (0, 0)
  | some s =>
    if s.toList = [] ∨ pyStrip s.toList = [] then .ok (0, 0)
    else
      match findTranslate s.toList with
      | some (n1, o2) =>
        match pyFloat? n1 with
        | none => .error ()
        | some a =>
          match o2 with
          | none => .ok (a, 0)
          | some n2 =>
            match pyFloat? n2 with
            | none => .error ()
            | some b => .ok (a, b)
      | none =>
        match findMatrix s.toList with
        | some (n5, n6) =>
          match pyFloat? n5, pyFloat? n6 with
          | some e, some f => .ok (e, f)
          | _, _ => .error ()
        | none => .ok (0, 0)

/-- Truncation toward zero, the behaviour of Python int() on a real value. -/
def ratTrunc (q : ℚ) : ℤ := q.num.tdiv q.den

/-- Embedding of the svg_to_png closure defined inside
    svg_to_component_positions: map document-root SVG coordinates to output
    pixel coordinates, guarding a zero-sized viewBox and clamping to the
    output rectangle. -/
def svg_to_png (vbx vby vbw vbh : ℚ) (pngW pngH : ℤ) (sx sy : ℚ) : ℤ × ℤ :=
  let px : ℤ := if vbw ≠ 0 then ratTrunc ((sx - vbx) / vbw * (pngW : ℚ)) else 0
  let py : ℤ := if vbh ≠ 0 then ratTrunc ((sy - vby) / vbh * (pngH : ℚ)) else 0
  (max 0 (min px (pngW - 1)), max 0 (min py (pngH - 1)))

mutual
/-- XML element as produced by xml.etree.ElementTree: tag, attributes, direct
    text content, children in document order. -/
inductive Element : Type
  | mk (tag : String) (attrs : List (String × String)) (text : Option String)
      (children : ElemList)
/-- Sibling list, mutual with Element so that all recursions stay structural. -/
inductive ElemList : Type
  | nil
  | cons (head : Element) (tail : ElemList)
end

def Element.tag : Element → String
  | .mk t _ _ _ => t

def Element.attrs : Element → List (String × String)
  | .mk _ a _ _ => a

def Element.text : Element → Option String
  | .mk _ _ x _ => x

def Element.children : Element → ElemList
  | .mk _ _ _ c => c

/-- ElementTree's element.get(key): value of the attribute, if present. -/
def Element.get (el : Element) (key : String) : Option String :=
  (el.attrs.find? fun p => p.1 == key).map (·.2)

/-- Conversion helper for writing concrete documents. -/
def elist : List Element → ElemList
  | [] => .nil
  | e :: es => .cons e (elist es)

/-- Concrete document helper. -/
def elem (tag : String) (attrs : List (String × String)) (text : Option String)
    (children : List Element) : Element :=
  .mk tag attrs text (elist children)

/-- Embedding of _strip_ns: drop an XML namespace `\x7bns\x7d` prefix from a tag. -/
def strip_ns (t : String) : String :=
  if t.toList.any (· == '\x7d') then
    String.mk ((t.toList.dropWhile fun c => !(c == '\x7d')).tail)
  else t

/-- Python float(el.get(key, 0)): an absent attribute defaults to 0, a present
    one is parsed; none models the ValueError float() raises on junk. -/
def attrFloat (el : Element) (key : String) : Option ℚ :=
  match el.get key with
  | none => some 0
  | some s => pyFloat? s.toList

/-- Embedding of _get_rect_bbox: (x, y, width, height) of an SVG rect element;
    the try/except in the source catches the ValueError, so this is total. -/
def get_rect_bbox (el : Element) : Option (ℚ × ℚ × ℚ × ℚ) :=
  if strip_ns el.tag = "rect" then
    match attrFloat el "x", attrFloat el "y", attrFloat el "width", attrFloat el "height" with
    | some x, some y, some w, some h => some (x, y, w, h)
    | _, _, _, _ => none
  else none

/-- Attempt of the regex `[Mm]\s*([-\d.]+)\s*[, ]\s*([-\d.]+)` anchored at the
    start of the input. -/
def tryMoveToAt (cs : List Char) : Option (List Char × List Char) :=
  match cs with
  | c :: rest =>
    if c == 'M' || c == 'm' then
      let r1 := rest.dropWhile isPySpace
      let n1 := r1.takeWhile isNumChar
      if n1.isEmpty then none
      else
        match parseSepNum (r1.dropWhile isNumChar) with
        | some (n2, _) => some (n1, n2)
        | none => none
    else none
  | [] => none

/-- re.search for the path move-to regex. -/
def findMoveTo : List Char → Option (List Char × List Char)
  | [] => none
  | c :: rest =>
    match tryMoveToAt (c :: rest) with
    | some g => some g
    | none => findMoveTo rest

/-- Python list slice nums[0::2]. -/
def evenIdx : List ℚ → List ℚ
  | [] => []
  | [x] => [x]
  | x :: _ :: xs => x :: evenIdx xs

/-- Python list slice nums[1::2]. -/
def oddIdx (l : List ℚ) : List ℚ := evenIdx l.tail

/-- Python min() over a non-empty list (0 as an unused default). -/
def listMin : List ℚ → ℚ
  | [] => 0
  | x :: xs => xs.foldl min x

/-- Python max() over a non-empty list (0 as an unused default). -/
def listMax : List ℚ → ℚ
  | [] => 0
  | x :: xs => xs.foldl max x

/-- The comprehension [float(p) for p in parts if p]: an error models the
    uncaught ValueError on the first non-numeric entry. -/
def floatList : List (List Char) → Except Unit (List ℚ)
  | [] => .ok []
  | p :: ps =>
    match pyFloat? p with
    | some q =>
      match floatList ps with
      | .ok qs => .ok (q :: qs)
      | .error e => .error e
    | none => .error ()

/-- Embedding of _get_polygon_bbox: bounding box from polygon/polyline points
    or the first move-to of a path. Unlike _get_rect_bbox there is no
    try/except here, so a non-numeric points entry propagates a ValueError,
    modelled as Except.error. -/
def get_polygon_bbox (el : Element) : Except Unit (Option (ℚ × ℚ × ℚ × ℚ)) :=
  let tag := strip_ns el.tag
  if tag = "polygon" ∨ tag = "polyline" ∨ tag = "path" then
    let pts? : Option String :=
      match el.get "points" with
      | some s => if s = "" then el.get "d" else some s
      | none => el.get "d"
    match pts? with
    | none => .ok none
    | some ps =>
      if ps = "" then .ok none
      else if tag = "path" then
        match findMoveTo ps.toList with
        | some (n1, n2) =>
          match pyFloat? n1, pyFloat? n2 with
          | some x, some y => .ok (some (x, y, 1, 1))
          | _, _ => .error ()
        | none => .ok none
      else
        let parts := reSplitWsComma (pyStrip ps.toList)
        if parts.length < 4 then .ok none
        else
          match floatList (parts.filter fun p => !p.isEmpty) with
          | .error e => .error e
          | .ok nums =>
            if nums.length < 4 then .ok none
            else
              .ok (some (listMin (evenIdx nums), listMin (oddIdx nums),
                listMax (evenIdx nums) - listMin (evenIdx nums),
                listMax (oddIdx nums) - listMin (oddIdx nums)))
  else .ok none

/-- The expression `_get_rect_bbox(child) or _get_polygon_bbox(child)`: a
    non-empty tuple is truthy, so the polygon reader only runs when the rect
    reader yields None. -/
def shape_bbox (el : Element) : Except Unit (Option (ℚ × ℚ × ℚ × ℚ)) :=
  match get_rect_bbox el with
  | some b => .ok (some b)
  | none => get_polygon_bbox el

mutual
/-- Embedding of _get_group_bbox: first child (recursing into nested g
    elements) that yields a shape bounding box. -/
def get_group_bbox : Element → Except Unit (Option (ℚ × ℚ × ℚ × ℚ))
  | .mk _ _ _ children => groupBboxScan children
/-- Scan of the child list inside _get_group_bbox's for loop. -/
def groupBboxScan : ElemList → Except Unit (Option (ℚ × ℚ × ℚ × ℚ))
  | .nil => .ok none
  | .cons c cs =>
    match shape_bbox c with
    | .error e => .error e
    | .ok (some b) => .ok (some b)
    | .ok none =>
      if strip_ns c.tag = "g" then
        match get_group_bbox c with
        | .error e => .error e
        | .ok (some b) => .ok (some b)
        | .ok none => groupBboxScan cs
      else groupBboxScan cs
end

/-- The inner loop of _get_text_content over elem's children: first sub-span
    whose text is truthy, stripped. -/
def firstChildText : ElemList → Option String
  | .nil => none
  | .cons c cs =>
    match c.text with
    | some t => if t = "" then firstChildText cs else some (pyStripStr t)
    | none => firstChildText cs

mutual
/-- The value _get_text_content would return from this subtree, if any: its
    iter() loop in document order with the early returns. -/
def firstText : Element → Option String
  | .mk tag _ txt children =>
    if strip_ns tag = "text" ∧ txt.getD "" ≠ "" then
      let t := pyStripStr (txt.getD "")
      if t ≠ "" then some t
      else
        match firstChildText children with
        | some s => some s
        | none => firstTextList children
    else firstTextList children
/-- Document-order continuation of the iter() scan over a sibling list. -/
def firstTextList : ElemList → Option String
  | .nil => none
  | .cons c cs =>
    match firstText c with
    | some s => some s
    | none => firstTextList cs
end

/-- Embedding of _get_text_content: first non-empty text found, else "". -/
def get_text_content (el : Element) : String := (firstText el).getD ""

/-- The NamedTuple ComponentPosition of the source: a component block with its
    output pixel position. -/
structure ComponentPosition where
  id : String
  label : String
  name : String
  x : ℤ
  y : ℤ
deriving DecidableEq

/-- Python str.split on a single-character separator, keeping empty pieces. -/
def splitOnChar (c : Char) : List Char → List (List Char)
  | [] => [[]]
  | x :: xs =>
    if x == c then [] :: splitOnChar c xs
    else
      match splitOnChar c xs with
      | h :: t => (x :: h) :: t
      | [] => [[x]]

/-- Python str.isdigit restricted to ASCII digits. -/
def pyIsDigit (cs : List Char) : Bool := !cs.isEmpty && cs.all Char.isDigit

/-- The short-id derivation in walk: strip a numeric suffix and prefix tokens
    from the element id, else fall back to the label or a node_<index>
    placeholder. -/
def shortIdOf (gid : String) (label0 : String) (count : Nat) : String :=
  if gid ≠ "" ∧ gid.toList.contains '-' then
    let parts := splitOnChar '-' gid.toList
    if parts.length ≥ 2 ∧ pyIsDigit (parts.getLastD []) then
      String.mk (parts.getD (parts.length - 2) [])
    else String.mk (parts.getLastD [])
  else if gid ≠ "" then gid
  else if label0 ≠ "" then label0
  else "node_" ++ toString count

/-- The ComponentPosition record appended by walk for a qualifying group. -/
def emitRecord (vbx vby vbw vbh : ℚ) (pngW pngH : ℤ) (el : Element)
    (bbox : ℚ × ℚ × ℚ × ℚ) (cumx cumy : ℚ) (count : Nat) : ComponentPosition :=
  let cx := bbox.1 + bbox.2.2.1 / 2
  let cy := bbox.2.1 + bbox.2.2.2 / 2
  let p := svg_to_png vbx vby vbw vbh pngW pngH (cx + cumx) (cy + cumy)
  let label0 := pyStripStr (get_text_content el)
  let gid := pyStripStr ((el.get "id").getD "")
  let sid := shortIdOf gid label0 count
  let label := if label0 = "" then sid else label0
  let name := if label ≠ "" then label else sid
  ⟨sid, label, name, p.1, p.2⟩

/-- The class test in walk: is this a g element marked as a node or a
    subgraph cluster? -/
def isQualifyingGroup (el : Element) : Prop :=
  strip_ns el.tag = "g" ∧
    let classes := (pySplitWs ((el.get "class").getD "").toList).map String.mk
    ("node" ∈ classes ∨ "cluster" ∈ classes ∨ "clusterRow" ∈ classes)

instance (el : Element) : Decidable (isQualifyingGroup el) := by
  unfold isQualifyingGroup; infer_instance

mutual
/-- Embedding of the recursive walk closure in svg_to_component_positions:
    pre-order traversal accumulating translations, appending one
    ComponentPosition per qualifying group with a discoverable bounding box. -/
def walk (vbx vby vbw vbh : ℚ) (pngW pngH : ℤ) :
    Element → ℚ → ℚ → List ComponentPosition → Except Unit (List ComponentPosition)
  | .mk tag attrs txt children, ctx, cty, acc =>
    let el : Element := .mk tag attrs txt children
    match parse_transform (el.get "transform") with
    | .error e => .error e
    | .ok t =>
      let cumx := ctx + t.1
      let cumy := cty + t.2
      let step : Except Unit (List ComponentPosition) :=
        if isQualifyingGroup el then
          match get_group_bbox el with
          | .error e => .error e
          | .ok none => .ok acc
          | .ok (some b) =>
            .ok (acc ++ [emitRecord vbx vby vbw vbh pngW pngH el b cumx cumy acc.length])
        else .ok acc
      match step with
      | .error e => .error e
      | .ok acc2 => walkList vbx vby vbw vbh pngW pngH children cumx cumy acc2
/-- The for-loop over children at the end of walk. -/
def walkList (vbx vby vbw vbh : ℚ) (pngW pngH : ℤ) :
    ElemList → ℚ → ℚ → List ComponentPosition → Except Unit (List ComponentPosition)
  | .nil, _, _, acc => .ok acc
  | .cons c cs, ctx, cty, acc =>
    match walk vbx vby vbw vbh pngW pngH c ctx cty acc with
    | .error e => .error e
    | .ok acc2 => walkList vbx vby vbw vbh pngW pngH cs ctx cty acc2
end

/-- The width/height fallback used when no usable viewBox is present. -/
def widthHeightBox (root : Element) (pngW pngH : ℤ) : Except Unit (ℚ × ℚ × ℚ × ℚ) :=
  let w? := match root.get "width" with
    | none => some (pngW : ℚ)
    | some s => pyFloat? s.toList
  let h? := match root.get "height" with
    | none => some (pngH : ℚ)
    | some s => pyFloat? s.toList
  match w?, h? with
  | some w, some h => .ok (0, 0, w, h)
  | _, _ => .error ()

/-- The viewBox resolution at the top of svg_to_component_positions; a falsy
    (absent or empty) viewBox attribute selects the width/height branch. -/
def computeViewBox (root : Element) (pngW pngH : ℤ) : Except Unit (ℚ × ℚ × ℚ × ℚ) :=
  match root.get "viewBox" with
  | some v =>
    if v ≠ "" then
      match pySplitWs (pyStrip v.toList) with
      | [p0, p1, p2, p3] =>
        (match pyFloat? p0, pyFloat? p1, pyFloat? p2, pyFloat? p3 with
         | some a, some b, some c, some d => .ok (a, b, c, d)
         | _, _, _, _ => .error ())
      | _ => .ok (0, 0, (pngW : ℚ), (pngH : ℚ))
    else widthHeightBox root pngW pngH
  | none => widthHeightBox root pngW pngH

/-- Embedding of svg_to_component_positions: parse the viewBox, then walk the
    document from the root with no accumulated translation. -/
def svg_to_component_positions (root : Element) (pngW pngH : ℤ) :
    Except Unit (List ComponentPosition) :=
  match computeViewBox root pngW pngH with
  | .error e => .error e
  | .ok vb => walk vb.1 vb.2.1 vb.2.2.1 vb.2.2.2 pngW pngH root 0 0 []

/-- The SVG document of the specification's worked example. -/
def exampleDoc : Element :=
  elem "svg" [("viewBox", "0 0 100 100")] none [
    elem "g" [("class", "node"), ("id", "flowchart-API-3")] none [
      elem "rect" [("x", "10"), ("y", "10"), ("width", "20"), ("height", "10")] none [],
      elem "text" [] (some "API Server") []]]

instance {α : Type} [DecidableEq α] : DecidableEq (Except Unit α) := fun x y =>
  match x, y with
  | .error a, .error b => by cases a; cases b; exact isTrue rfl
  | .ok a, .ok b =>
    if h : a = b then isTrue (by rw [h]) else
      isFalse (by intro hh; injection hh; contradiction)
  | .error _, .ok _ => isFalse (by intro h; exact Except.noConfusion h)
  | .ok _, .error _ => isFalse (by intro h; exact Except.noConfusion h)

mutual
/-- Flattened view of the elements _get_group_bbox inspects, in inspection
    order: each child followed, for g children, by the child's own candidate
    list (the recursion reaches nested groups at any depth). -/
def candidates : Element → List Element
  | .mk _ _ _ children => candidatesList children
/-- Candidate list of a sibling list. -/
def candidatesList : ElemList → List Element
  | .nil => []
  | .cons c cs =>
    (c :: (if strip_ns c.tag = "g" then candidates c else [])) ++ candidatesList cs
end

/-- First shape box over a flattened candidate list, propagating an error the
    moment a shape reader raises. -/
def findFirstBox : List Element → Except Unit (Option (ℚ × ℚ × ℚ × ℚ))
  | [] => .ok none
  | e :: es =>
    match shape_bbox e with
    | .error err => .error err
    | .ok (some b) => .ok (some b)
    | .ok none => findFirstBox es

/-- Modelled from the spec for comparison with the code: the one-nesting-level
    shape scan of the claim, looking only at direct children. -/
def oneLevelScanInner : ElemList → Except Unit (Option (ℚ × ℚ × ℚ × ℚ))
  | .nil => .ok none
  | .cons c cs =>
    match shape_bbox c with
    | .error e => .error e
    | .ok (some b) => .ok (some b)
    | .ok none => oneLevelScanInner cs

/-- Modelled from the spec for comparison with the code: group bounding box
    search over direct children and exactly one level of nested group. -/
def oneLevelScan : ElemList → Except Unit (Option (ℚ × ℚ × ℚ × ℚ))
  | .nil => .ok none
  | .cons c cs =>
    match shape_bbox c with
    | .error e => .error e
    | .ok (some b) => .ok (some b)
    | .ok none =>
      if strip_ns c.tag = "g" then
        match oneLevelScanInner c.children with
        | .error e => .error e
        | .ok (some b) => .ok (some b)
        | .ok none => oneLevelScan cs
      else oneLevelScan cs

/-- Modelled from the spec for comparison with the code: the claimed group
    bounding box limited to one level of group nesting. -/
def spec_group_bbox_one_level (el : Element) : Except Unit (Option (ℚ × ℚ × ℚ × ℚ)) :=
  oneLevelScan el.children

/-- A group whose only shape sits below two levels of nested groups. -/
def deepDoc : Element :=
  elem "g" [] none [elem "g" [] none [elem "g" [] none [
    elem "rect" [("x", "1"), ("y", "2"), ("width", "3"), ("height", "4")] none []]]]

/-- A polygon whose points attribute holds four non-numeric entries. -/
def junkPolygon : Element := elem "polygon" [("points", "a,b c,d")] none []

mutual
/-- element.iter() of ElementTree: the subtree in document (pre-)order,
    the element itself first. -/
def iterList : Element → List Element
  | .mk t a x children => .mk t a x children :: iterSibs children
/-- Document-order flattening of a sibling list. -/
def iterSibs : ElemList → List Element
  | .nil => []
  | .cons c cs => iterList c ++ iterSibs cs
end

/-- What _get_text_content decides at a single visited element: some result
    stops the scan (possibly with an empty string from a whitespace sub-span),
    none lets the scan continue. -/
def textProbe (el : Element) : Option String :=
  if strip_ns el.tag = "text" ∧ el.text.getD "" ≠ "" then
    let t := pyStripStr (el.text.getD "")
    if t ≠ "" then some t
    else firstChildText el.children
  else none

/-- Modelled from the spec for comparison with the code: the claimed label
    rule, in which a first matched text element with whitespace-only direct
    text always resolves to the text of its syntactically first sub-span. -/
def claimTextFirstSubSpan (el : Element) : Option String :=
  (iterList el).findSome? fun e =>
    if strip_ns e.tag = "text" ∧ e.text.getD "" ≠ "" then
      let t := pyStripStr (e.text.getD "")
      if t ≠ "" then some t
      else
        match e.children with
        | .cons c _ => some (pyStripStr (c.text.getD ""))
        | .nil => some ""
    else none

/-- A group whose first text element has whitespace-only direct text, an empty
    first sub-span and a second sub-span carrying text. -/
def subSpanDoc : Element :=
  elem "g" [] none [
    elem "text" [] (some " ") [
      elem "tspan" [] none [],
      elem "tspan" [] (some "Hi") []]]

mutual
/-- Count of qualifying groups with a discoverable bounding box in a subtree:
    the number of ComponentPosition records walk emits for it. -/
def qcount : Element → Nat
  | .mk t a x children =>
    (if isQualifyingGroup (.mk t a x children) then
       match get_group_bbox (.mk t a x children) with
       | .ok (some _) => 1
       | _ => 0
     else 0) + qcountSibs children
/-- Count of emitted records over a sibling list. -/
def qcountSibs : ElemList → Nat
  | .nil => 0
  | .cons c cs => qcount c + qcountSibs cs
end

/-- A document with one cluster-and-node group (one record, not two) and one
    qualifying group with no discoverable shape (no record, no error). -/
def clusterNodeDoc : Element :=
  elem "svg" [("viewBox", "0 0 100 100")] none [
    elem "g" [("class", "cluster node"), ("id", "flowchart-C-7")] none [
      elem "rect" [("x", "10"), ("y", "10"), ("width", "20"), ("height", "20")] none [],
      elem "text" [] (some "C") []],
    elem "g" [("class", "node"), ("id", "flowchart-D-8")] none [
      elem "text" [] (some "D") []]]

/-- A numeric token as captured by the regex class [-\d.]+ together with the
    value Python float() gives it. -/
def NumToken (s : String) (a : ℚ) : Prop :=
  s.toList ≠ [] ∧ (∀ c ∈ s.toList, isNumChar c = true) ∧ pyFloat? s.toList = some a

/-- A plain g wrapper carrying only a translate transform. -/
def gWrap (sa sb : String) (inner : Element) : Element :=
  .mk "g" [("transform", "translate(" ++ sa ++ "," ++ sb ++ ")")] none
    (.cons inner .nil)

/-- Nested translate-only groups around an element. -/
def wrapChain : List (String × String) → Element → Element
  | [], el => el
  | (sa, sb) :: rest, el => gWrap sa sb (wrapChain rest el)

/-- The nested-groups document of the claim: node with local centre (10,10)
    inside translate(5,5) inside translate(100,0), identity viewBox. -/
def nestedDoc : Element :=
  elem "svg" [("viewBox", "0 0 200 200")] none [
    elem "g" [("transform", "translate(100,0)")] none [
      elem "g" [("transform", "translate(5,5)")] none [
        elem "g" [("class", "node"), ("id", "flowchart-K-1")] none [
          elem "rect" [("x", "5"), ("y", "5"), ("width", "10"), ("height", "10")] none [],
          elem "text" [] (some "K") []]]]]

/-- A node whose rect centre has fractional x-coordinate 10.75. -/
def roundDoc : Element :=
  elem "svg" [("viewBox", "0 0 100 100")] none [
    elem "g" [("class", "node"), ("id", "flowchart-A-1")] none [
      elem "rect" [("x", "10"), ("y", "0"), ("width", "1.5"), ("height", "10")] none [],
      elem "text" [] (some "A") []]]

/-- A root with an empty (hence falsy) viewBox attribute and explicit
    width/height attributes. -/
def emptyViewBoxDoc : Element :=
  elem "svg" [("viewBox", ""), ("width", "50"), ("height", "50")] none [
    elem "g" [("class", "node"), ("id", "flowchart-B-2")] none [
      elem "rect" [("x", "0"), ("y", "0"), ("width", "20"), ("height", "20")] none [],
      elem "text" [] (some "B") []]]

/-- A root whose viewBox has three tokens rather than four. -/
def threeTokenViewBoxDoc : Element :=
  elem "svg" [("viewBox", "0 0 100")] none [
    elem "g" [("class", "node"), ("id", "flowchart-E-5")] none [
      elem "rect" [("x", "1"), ("y", "1"), ("width", "2"), ("height", "2")] none [],
      elem "text" [] (some "E") []]]

/-- C1: for the worked-example SVG with output dimensions 200 by 200, exactly
    one ComponentPosition is returned, with id "API" (numeric suffix and
    prefix token stripped), label "API Server", and pixel centre (40, 30). -/
theorem c1_example_extraction :
    svg_to_component_positions exampleDoc 200 200 =
      .ok [⟨"API", "API Server", "API Server", 40, 30⟩] := by
  with_unfolding_all rfl

/-- C2 counterexample: a node rect centred at x = 10.75 under an identity
    viewBox maps to pixel x = 10 (truncation toward zero), while the claimed
    round formula gives 11. -/
theorem c2_counterexample :
    svg_to_component_positions roundDoc 100 100 = .ok [⟨"A", "A", "A", 10, 5⟩] ∧
    round ((10 : ℚ) + (3 / 2) / 2) = 11 ∧ (10 : ℤ) ≠ 11 := by
  refine ⟨by with_unfolding_all rfl, ?_, by decide⟩
  norm_num [round_eq]

/-- C2 amended: with a nonzero viewBox extent the mapper computes
    px = trunc((sx - vx) / vw * W) truncated toward zero (not rounded) and then
    clamps; in particular, under an identity viewBox the output is the clamped
    truncation of the input coordinates themselves. -/
theorem c2_trunc_mapping (vbx vby vbw vbh : ℚ) (pngW pngH : ℤ) (sx sy cx cy : ℚ)
    (h1 : vbw ≠ 0) (h2 : vbh ≠ 0) (h3 : (pngW : ℚ) ≠ 0) (h4 : (pngH : ℚ) ≠ 0) :
    svg_to_png vbx vby vbw vbh pngW pngH sx sy =
      (max 0 (min (ratTrunc ((sx - vbx) / vbw * (pngW : ℚ))) (pngW - 1)),
       max 0 (min (ratTrunc ((sy - vby) / vbh * (pngH : ℚ))) (pngH - 1))) ∧
    svg_to_png 0 0 (pngW : ℚ) (pngH : ℚ) pngW pngH cx cy =
      (max 0 (min (ratTrunc cx) (pngW - 1)),
       max 0 (min (ratTrunc cy) (pngH - 1))) := by
  constructor
  · simp only [svg_to_png, if_pos h1, if_pos h2]
  · have e1 : (cx - 0) / (pngW : ℚ) * (pngW : ℚ) = cx := by
      rw [sub_zero, div_mul_cancel₀ _ h3]
    have e2 : (cy - 0) / (pngH : ℚ) * (pngH : ℚ) = cy := by
      rw [sub_zero, div_mul_cancel₀ _ h4]
    simp only [svg_to_png, if_pos h3, if_pos h4, e1, e2]

/-- C2 amended witness at the counterexample's geometry. -/
theorem c2_trunc_mapping_witness :
    svg_to_png 0 0 ((100 : ℤ) : ℚ) ((100 : ℤ) : ℚ) 100 100 (43 / 4) 5 =
      (max 0 (min (ratTrunc (43 / 4)) (100 - 1)),
       max 0 (min (ratTrunc 5) (100 - 1))) :=
  (c2_trunc_mapping 1 1 1 1 100 100 0 0 (43 / 4) 5 one_ne_zero one_ne_zero
    (by norm_num) (by norm_num)).2

/-- C3: the mapper is total: for positive output dimensions every result lies
    in [0, W-1] x [0, H-1], and a zero viewBox extent yields coordinate 0
    rather than a division error. -/
theorem c3_mapper_total (vbx vby vbw vbh : ℚ) (pngW pngH : ℤ) (sx sy : ℚ)
    (hW : 1 ≤ pngW) (hH : 1 ≤ pngH) :
    (0 ≤ (svg_to_png vbx vby vbw vbh pngW pngH sx sy).1 ∧
      (svg_to_png vbx vby vbw vbh pngW pngH sx sy).1 ≤ pngW - 1) ∧
    (0 ≤ (svg_to_png vbx vby vbw vbh pngW pngH sx sy).2 ∧
      (svg_to_png vbx vby vbw vbh pngW pngH sx sy).2 ≤ pngH - 1) ∧
    (vbw = 0 → (svg_to_png vbx vby vbw vbh pngW pngH sx sy).1 = 0) ∧
    (vbh = 0 → (svg_to_png vbx vby vbw vbh pngW pngH sx sy).2 = 0) := by
  simp only [svg_to_png]
  refine ⟨⟨le_max_left _ _, max_le (by omega) (min_le_right _ _)⟩,
    ⟨le_max_left _ _, max_le (by omega) (min_le_right _ _)⟩, ?_, ?_⟩
  · intro h
    rw [if_neg (not_not_intro h)]
    rw [min_eq_left (by omega : (0 : ℤ) ≤ pngW - 1), max_self]
  · intro h
    rw [if_neg (not_not_intro h)]
    rw [min_eq_left (by omega : (0 : ℤ) ≤ pngH - 1), max_self]

/-- C3 witness: a coordinate far outside the viewBox and a zero-width viewBox,
    at output dimensions 100 by 100. -/
theorem c3_mapper_total_witness :
    (0 ≤ (svg_to_png 0 0 0 100 100 100 100000 (-100000)).1 ∧
      (svg_to_png 0 0 0 100 100 100 100000 (-100000)).1 ≤ 100 - 1) ∧
    (0 ≤ (svg_to_png 0 0 0 100 100 100 100000 (-100000)).2 ∧
      (svg_to_png 0 0 0 100 100 100 100000 (-100000)).2 ≤ 100 - 1) ∧
    ((0 : ℚ) = 0 → (svg_to_png 0 0 0 100 100 100 100000 (-100000)).1 = 0) ∧
    ((100 : ℚ) = 0 → (svg_to_png 0 0 0 100 100 100 100000 (-100000)).2 = 0) :=
  c3_mapper_total 0 0 0 100 100 100 100000 (-100000) (by omega) (by omega)

theorem findFirstBox_append (l1 l2 : List Element) :
    findFirstBox (l1 ++ l2) =
      match findFirstBox l1 with
      | .ok none => findFirstBox l2
      | .ok (some b) => .ok (some b)
      | .error e => .error e := by
  induction l1 with
  | nil => simp [findFirstBox]
  | cons e es ih =>
    simp only [List.cons_append, findFirstBox]
    cases hsb : shape_bbox e with
    | error err => rfl
    | ok ob =>
      cases ob with
      | none => exact ih
      | some b => rfl

mutual
theorem get_group_bbox_flatten : ∀ el : Element, get_group_bbox el = findFirstBox (candidates el)
  | .mk t a x children => by
    simp only [get_group_bbox, candidates]
    exact groupBboxScan_flatten children
theorem groupBboxScan_flatten : ∀ cs : ElemList, groupBboxScan cs = findFirstBox (candidatesList cs)
  | .nil => rfl
  | .cons c cs => by
    have ihc := get_group_bbox_flatten c
    have ihs := groupBboxScan_flatten cs
    simp only [groupBboxScan, candidatesList]
    rw [findFirstBox_append]
    simp only [findFirstBox]
    cases hsb : shape_bbox c with
    | error err => rfl
    | ok ob =>
      cases ob with
      | some b => rfl
      | none =>
        by_cases hg : strip_ns c.tag = "g"
        · rw [if_pos hg, if_pos hg, ← ihc]
          cases hgb : get_group_bbox c with
          | error e2 => rfl
          | ok ob2 =>
            cases ob2 with
            | some b2 => rfl
            | none => exact ihs
        · rw [if_neg hg, if_neg hg]
          simp only [findFirstBox]
          exact ihs
end

/-- C6 amended: the group bounding box is the first shape box found in
    inspection order over the direct children, recursing into nested groups at
    any depth (not just one level); the first match wins and boxes are never
    merged, as the flattened first-match characterization shows. -/
theorem c6_group_bbox_first_match (el : Element) :
    get_group_bbox el = findFirstBox (candidates el) :=
  get_group_bbox_flatten el

/-- C6 witness at the deep-nesting document. -/
theorem c6_group_bbox_first_match_witness :
    get_group_bbox deepDoc = findFirstBox (candidates deepDoc) :=
  c6_group_bbox_first_match deepDoc

/-- C6 counterexample: a rect below two levels of nested groups is found by
    the code, while the claimed one-level search finds nothing. -/
theorem c6_counterexample :
    get_group_bbox deepDoc = .ok (some (1, 2, 3, 4)) ∧
    spec_group_bbox_one_level deepDoc = .ok none :=
  ⟨by with_unfolding_all rfl, by with_unfolding_all rfl⟩

/-- C7 counterexample: a polygon whose points entries are non-numeric raises a
    ValueError from float() (no try/except protects this path), rather than
    degrading to "no box". -/
theorem c7_counterexample :
    get_polygon_bbox junkPolygon = .error () ∧
    get_polygon_bbox junkPolygon ≠ .ok none :=
  ⟨by with_unfolding_all rfl, by with_unfolding_all decide⟩

/-- C7 amended: the rect reader defaults missing attributes to 0 and returns
    no box on a non-numeric value; a polygon points list with fewer than two
    coordinate pairs and a path with no move-to yield no box; but a
    non-numeric entry in a long-enough points list raises (see the
    counterexample), so the polygon reader is not total. -/
theorem c7_shape_readers (s pts d : String)
    (hs : pyFloat? s.toList = none)
    (hp : (reSplitWsComma (pyStrip pts.toList)).length < 4)
    (hd : findMoveTo d.toList = none) :
    get_rect_bbox (elem "rect" [] none []) = some (0, 0, 0, 0) ∧
    get_rect_bbox (elem "rect" [("x", s)] none []) = none ∧
    get_polygon_bbox (elem "polygon" [("points", pts)] none []) = .ok none ∧
    get_polygon_bbox (elem "path" [("d", d)] none []) = .ok none := by
  refine ⟨by with_unfolding_all rfl, ?_, ?_, ?_⟩
  · have hget : (elem "rect" [("x", s)] none []).get "x" = some s := rfl
    have hx : attrFloat (elem "rect" [("x", s)] none []) "x" = none := by
      simp only [attrFloat, hget, hs]
    have htag : strip_ns (elem "rect" [("x", s)] none []).tag = "rect" := by
      with_unfolding_all rfl
    simp [get_rect_bbox, htag, hx]
  · by_cases hpe : pts = ""
    · subst hpe; with_unfolding_all rfl
    · have hget : (elem "polygon" [("points", pts)] none []).get "points" = some pts := rfl
      have htag : strip_ns (elem "polygon" [("points", pts)] none []).tag = "polygon" := by
        with_unfolding_all rfl
      simp [get_polygon_bbox, htag, hget, hpe, hp]
      intro hge
      simp only [String.toList] at hp
      omega
  · by_cases hde : d = ""
    · subst hde; with_unfolding_all rfl
    · have hget : (elem "path" [("d", d)] none []).get "d" = some d := rfl
      have hnop : (elem "path" [("d", d)] none []).get "points" = none := rfl
      have htag : strip_ns (elem "path" [("d", d)] none []).tag = "path" := by
        with_unfolding_all rfl
      simp [get_polygon_bbox, htag, hget, hnop, hde]
      rw [show findMoveTo d.data = none from hd]

/-- C7 witness: a junk rect x, a one-pair points list, and a path with no
    move-to command. -/
theorem c7_shape_readers_witness :
    get_rect_bbox (elem "rect" [] none []) = some (0, 0, 0, 0) ∧
    get_rect_bbox (elem "rect" [("x", "abc")] none []) = none ∧
    get_polygon_bbox (elem "polygon" [("points", "1,2")] none []) = .ok none ∧
    get_polygon_bbox (elem "path" [("d", "L 3 4")] none []) = .ok none :=
  c7_shape_readers "abc" "1,2" "L 3 4" (by with_unfolding_all rfl)
    (by with_unfolding_all decide) (by with_unfolding_all rfl)

/-- C10 counterexample: an empty viewBox attribute is falsy, so the code takes
    the width/height branch (here 50 by 50) instead of proceeding as if the
    viewBox were (0, 0, png_width, png_height): the node centre (10,10) maps
    to (20,20), not (10,10). -/
theorem c10_counterexample :
    svg_to_component_positions emptyViewBoxDoc 100 100 = .ok [⟨"B", "B", "B", 20, 20⟩] ∧
    walk 0 0 (100 : ℚ) (100 : ℚ) 100 100 emptyViewBoxDoc 0 0 [] = .ok [⟨"B", "B", "B", 10, 10⟩] ∧
    svg_to_component_positions emptyViewBoxDoc 100 100 ≠
      walk 0 0 (100 : ℚ) (100 : ℚ) 100 100 emptyViewBoxDoc 0 0 [] :=
  ⟨by with_unfolding_all rfl, by with_unfolding_all rfl, by with_unfolding_all decide⟩

/-- C10 amended: a non-empty viewBox attribute that does not split into
    exactly four whitespace-separated tokens neither raises nor skips the
    document: the pipeline behaves exactly as with viewBox
    (0, 0, png_width, png_height). -/
theorem c10_viewbox_fallback (root : Element) (pngW pngH : ℤ) (v : String)
    (hv : root.get "viewBox" = some v) (hne : v ≠ "")
    (hlen : (pySplitWs (pyStrip v.toList)).length ≠ 4) :
    svg_to_component_positions root pngW pngH =
      walk 0 0 (pngW : ℚ) (pngH : ℚ) pngW pngH root 0 0 [] := by
  unfold svg_to_component_positions computeViewBox
  rw [hv]
  simp only [hne, ne_eq, not_false_eq_true, if_true]
  rcases hsplit : pySplitWs (pyStrip v.toList) with _ | ⟨a, _ | ⟨b, _ | ⟨c, _ | ⟨d, _ | e⟩⟩⟩⟩ <;>
    first
      | rfl
      | (exfalso; rw [hsplit] at hlen; exact hlen rfl)

/-- C10 witness at a three-token viewBox document. -/
theorem c10_viewbox_fallback_witness :
    svg_to_component_positions threeTokenViewBoxDoc 100 100 =
      walk 0 0 ((100 : ℤ) : ℚ) ((100 : ℤ) : ℚ) 100 100 threeTokenViewBoxDoc 0 0 [] :=
  c10_viewbox_fallback threeTokenViewBoxDoc 100 100 "0 0 100"
    (by with_unfolding_all rfl) (by decide) (by with_unfolding_all decide)

theorem num_not_space {c : Char} (h : isNumChar c = true) : isPySpace c = false := by
  cases hs : isPySpace c
  · rfl
  · exfalso
    unfold isPySpace at hs
    simp only [Bool.or_eq_true, beq_iff_eq] at hs
    rcases hs with ((((h1 | h1) | h1) | h1) | h1) | h1 <;> subst h1 <;>
      exact absurd h (by decide)

theorem takeWhile_run {p : Char → Bool} {xs ys : List Char}
    (hxs : ∀ c ∈ xs, p c = true)
    (hys : ∀ c cs2, ys = c :: cs2 → p c = false) :
    (xs ++ ys).takeWhile p = xs := by
  induction xs with
  | nil =>
    cases ys with
    | nil => rfl
    | cons y t =>
      simp only [List.nil_append, List.takeWhile_cons, hys y t rfl]
      rfl
  | cons x t ih =>
    rw [List.cons_append, List.takeWhile_cons, if_pos (hxs x (by simp)),
      ih (fun c hc => hxs c (by simp [hc]))]

theorem dropWhile_run {p : Char → Bool} {xs ys : List Char}
    (hxs : ∀ c ∈ xs, p c = true)
    (hys : ∀ c cs2, ys = c :: cs2 → p c = false) :
    (xs ++ ys).dropWhile p = ys := by
  induction xs with
  | nil =>
    cases ys with
    | nil => rfl
    | cons y t =>
      simp only [List.nil_append, List.dropWhile_cons, hys y t rfl]
      rfl
  | cons x t ih =>
    rw [List.cons_append, List.dropWhile_cons, if_pos (hxs x (by simp)),
      ih (fun c hc => hxs c (by simp [hc]))]

theorem dropWhile_space_of_num_head {L rest : List Char} (hne : L ≠ [])
    (hall : ∀ c ∈ L, isNumChar c = true) :
    (L ++ rest).dropWhile isPySpace = L ++ rest := by
  obtain ⟨c0, t0, hL⟩ := List.exists_cons_of_ne_nil hne
  subst hL
  simp only [List.cons_append, List.dropWhile_cons,
    num_not_space (hall c0 (by simp))]
  rfl

theorem parseSepNum_comma {nb rest : List Char} (hne : nb ≠ [])
    (hall : ∀ c ∈ nb, isNumChar c = true)
    (hrest : ∀ c cs2, rest = c :: cs2 → isNumChar c = false) :
    parseSepNum (',' :: (nb ++ rest)) = some (nb, rest) := by
  unfold parseSepNum
  rw [List.dropWhile_cons, if_neg (by decide)]
  simp only []
  rw [dropWhile_space_of_num_head hne hall,
    takeWhile_run hall hrest, dropWhile_run hall hrest]
  rw [if_neg (by simpa using hne)]

theorem parseSepNum_space {nb rest : List Char} (hne : nb ≠ [])
    (hall : ∀ c ∈ nb, isNumChar c = true)
    (hrest : ∀ c cs2, rest = c :: cs2 → isNumChar c = false) :
    parseSepNum (' ' :: (nb ++ rest)) = some (nb, rest) := by
  obtain ⟨c0, t0, hL⟩ := List.exists_cons_of_ne_nil hne
  unfold parseSepNum
  rw [List.dropWhile_cons, if_pos (by decide)]
  rw [List.takeWhile_cons, if_pos (by decide)]
  rw [dropWhile_space_of_num_head hne hall]
  have htw : (nb ++ rest).takeWhile isPySpace = [] := by
    subst hL
    rw [List.cons_append, List.takeWhile_cons,
      if_neg (by simp [num_not_space (hall c0 (by simp))])]
  rw [htw]
  subst hL
  rw [List.cons_append]
  simp only []
  split
  · rename_i r1 heq
    exfalso
    injection heq with hc _
    have := hall c0 (by simp)
    rw [hc] at this
    exact absurd this (by decide)
  · rename_i ctail hdiseq heq
    injection heq with hc _
    rw [← hc]
    rw [if_pos (show (isNumChar c0 && [' '].contains ' ') = true by
      rw [hall c0 (by simp)]; decide)]
    rw [show c0 :: (t0 ++ rest) = (c0 :: t0) ++ rest from by simp]
    rw [takeWhile_run hall hrest, dropWhile_run hall hrest]
  · rename_i heq
    exact absurd heq (by simp)

theorem parseSepNum_comma_space {nb rest : List Char} (hne : nb ≠ [])
    (hall : ∀ c ∈ nb, isNumChar c = true)
    (hrest : ∀ c cs2, rest = c :: cs2 → isNumChar c = false) :
    parseSepNum (',' :: ' ' :: (nb ++ rest)) = some (nb, rest) := by
  have h1 : List.dropWhile isPySpace (',' :: ' ' :: (nb ++ rest)) =
      ',' :: ' ' :: (nb ++ rest) := by
    rw [List.dropWhile_cons, if_neg (by decide)]
  have h2 : List.dropWhile isPySpace (' ' :: (nb ++ rest)) = nb ++ rest := by
    rw [List.dropWhile_cons, if_pos (by decide), dropWhile_space_of_num_head hne hall]
  unfold parseSepNum
  rw [h1]
  simp only []
  rw [h2, takeWhile_run hall hrest, dropWhile_run hall hrest]
  rw [if_neg (by simpa using hne)]

theorem head_not_num_of_cons {c0 : Char} {t : List Char} (h0 : isNumChar c0 = false) :
    ∀ c cs2, (c0 :: t) = c :: cs2 → isNumChar c = false := by
  intro c cs2 h
  injection h with h1 _
  rw [← h1]
  exact h0

theorem pyStrip_cons_ne_nil {c : Char} {cs : List Char} (hc : isPySpace c = false) :
    pyStrip (c :: cs) ≠ [] := by
  unfold pyStrip
  intro h
  rw [List.reverse_eq_nil_iff, List.dropWhile_eq_nil_iff] at h
  rw [List.dropWhile_cons, if_neg (by simp [hc])] at h
  exact absurd (h c (by simp)) (by simp [hc])

theorem tryTranslateAt_eq {na rest : List Char} (hne : na ≠ [])
    (hall : ∀ c ∈ na, isNumChar c = true)
    (hrest : ∀ c cs2, rest = c :: cs2 → isNumChar c = false) :
    tryTranslateAt ("translate".toList ++ ('(' :: (na ++ rest))) =
      (match parseSepNum rest with
       | some (n2, r5) =>
         if closeParen? r5 then some (na, some n2)
         else if closeParen? rest then some (na, none) else none
       | none => if closeParen? rest then some (na, none) else none) := by
  unfold tryTranslateAt
  rw [if_pos ?pre]
  case pre =>
    rw [ List.isPrefixOf_iff_prefix]
    exact ⟨'(' :: (na ++ rest), rfl⟩
  rw [show ("translate".toList ++ ('(' :: (na ++ rest))).drop 9 = '(' :: (na ++ rest) from by
    rw [show (9 : Nat) = ("translate".toList).length from by decide, List.drop_left]]
  have h1 : List.dropWhile isPySpace ('(' :: (na ++ rest)) = '(' :: (na ++ rest) := by
    rw [List.dropWhile_cons, if_neg (by decide)]
  simp only []
  rw [h1]
  simp only []
  rw [dropWhile_space_of_num_head hne hall, takeWhile_run hall hrest,
    dropWhile_run hall hrest]
  rw [if_neg (by simpa using hne)]

theorem findTranslate_here {X : List Char} {g : List Char × Option (List Char)}
    (h : tryTranslateAt ("translate".toList ++ X) = some g) :
    findTranslate ("translate".toList ++ X) = some g := by
  rw [show "translate".toList ++ X = 't' :: ("ranslate".toList ++ X) from rfl]
  simp only [findTranslate]
  rw [show ('t' :: ("ranslate".toList ++ X)) = "translate".toList ++ X from rfl, h]

theorem NumToken.ne_nil {s : String} {a : ℚ} (h : NumToken s a) : s.toList ≠ [] := h.1

theorem NumToken.chars {s : String} {a : ℚ} (h : NumToken s a) :
    ∀ c ∈ s.toList, isNumChar c = true := h.2.1

theorem NumToken.float {s : String} {a : ℚ} (h : NumToken s a) :
    pyFloat? s.toList = some a := h.2.2

theorem parse_transform_cond_false {s : String} {c0 : Char} {t0 : List Char}
    (hdata : s.toList = c0 :: t0) (hc0 : isPySpace c0 = false) :
    ¬(s.toList = [] ∨ pyStrip s.toList = []) := by
  rw [hdata]
  push_neg
  exact ⟨by simp, pyStrip_cons_ne_nil hc0⟩

theorem parse_transform_translate_pair {sa sb : String} {a b : ℚ} {sep : String}
    (ha : NumToken sa a) (hb : NumToken sb b)
    (hsep : sep = "," ∨ sep = " " ∨ sep = ", ") :
    parse_transform (some ("translate(" ++ sa ++ sep ++ sb ++ ")")) = .ok (a, b) := by
  have hdata : ("translate(" ++ sa ++ sep ++ sb ++ ")").toList
      = "translate".toList ++ ('(' :: (sa.toList ++ (sep.toList ++ (sb.toList ++ [')'])))) := by
    show ("translate(" ++ sa ++ sep ++ sb ++ ")").data
        = "translate".data ++ ('(' :: (sa.data ++ (sep.data ++ (sb.data ++ [')']))))
    simp only [String.data_append]
    simp [List.append_assoc]
  have hsepparse : parseSepNum (sep.toList ++ (sb.toList ++ [')'])) = some (sb.toList, [')']) := by
    rcases hsep with h | h | h <;> subst h
    · exact parseSepNum_comma hb.ne_nil hb.chars (head_not_num_of_cons (by decide))
    · exact parseSepNum_space hb.ne_nil hb.chars (head_not_num_of_cons (by decide))
    · exact parseSepNum_comma_space hb.ne_nil hb.chars (head_not_num_of_cons (by decide))
  have htr : tryTranslateAt
      ("translate".toList ++ ('(' :: (sa.toList ++ (sep.toList ++ (sb.toList ++ [')']))))) =
      some (sa.toList, some sb.toList) := by
    rw [tryTranslateAt_eq ha.ne_nil ha.chars ?hrest]
    case hrest =>
      rcases hsep with h | h | h <;> subst h <;> exact head_not_num_of_cons (by decide)
    rw [hsepparse]
    simp only []
    rw [if_pos (by decide : closeParen? [')'] = true)]
  unfold parse_transform
  simp only []
  rw [if_neg (parse_transform_cond_false hdata (by decide))]
  rw [hdata, findTranslate_here htr]
  simp only []
  rw [ha.float]
  simp only []
  rw [hb.float]

theorem parse_transform_translate_single {sa : String} {a : ℚ} (ha : NumToken sa a) :
    parse_transform (some ("translate(" ++ sa ++ ")")) = .ok (a, 0) := by
  have hdata : ("translate(" ++ sa ++ ")").toList
      = "translate".toList ++ ('(' :: (sa.toList ++ [')'])) := by
    show ("translate(" ++ sa ++ ")").data = "translate".data ++ ('(' :: (sa.data ++ [')']))
    simp only [String.data_append]
    simp [List.append_assoc]
  have htr : tryTranslateAt ("translate".toList ++ ('(' :: (sa.toList ++ [')']))) =
      some (sa.toList, none) := by
    rw [tryTranslateAt_eq ha.ne_nil ha.chars (head_not_num_of_cons (by decide))]
    rw [show parseSepNum [')'] = none from by decide]
    simp only []
    rw [if_pos (by decide : closeParen? [')'] = true)]
  unfold parse_transform
  simp only []
  rw [if_neg (parse_transform_cond_false hdata (by decide))]
  rw [hdata, findTranslate_here htr]
  simp only []
  rw [ha.float]

theorem ne_ell_of_num {c : Char} (h : isNumChar c = true) : c ≠ 'l' := by
  intro he
  subst he
  exact absurd h (by decide)

theorem no_ell_append {l1 l2 : List Char} (h1 : ∀ c ∈ l1, c ≠ 'l')
    (h2 : ∀ c ∈ l2, c ≠ 'l') : ∀ c ∈ l1 ++ l2, c ≠ 'l' := by
  intro c hc
  rcases List.mem_append.mp hc with h | h
  · exact h1 c h
  · exact h2 c h

theorem no_ell_cons {c0 : Char} {l : List Char} (h0 : c0 ≠ 'l')
    (h : ∀ c ∈ l, c ≠ 'l') : ∀ c ∈ c0 :: l, c ≠ 'l' := by
  intro c hc
  rcases List.mem_cons.mp hc with h' | h'
  · rw [h']; exact h0
  · exact h c h'

theorem findTranslate_eq_none_of_no_ell {cs : List Char} (h : ∀ c ∈ cs, c ≠ 'l') :
    findTranslate cs = none := by
  induction cs with
  | nil => rfl
  | cons c rest ih =>
    have htry : tryTranslateAt (c :: rest) = none := by
      unfold tryTranslateAt
      rw [if_neg ?npre]
      case npre =>
        intro hpre
        rw [ List.isPrefixOf_iff_prefix] at hpre
        exact absurd rfl (h 'l' (hpre.subset (by decide)))
    simp [findTranslate, htry, ih fun x hx => h x (by simp [hx])]

theorem tryMatrixAt_eq {na rest : List Char} (hne : na ≠ [])
    (hall : ∀ c ∈ na, isNumChar c = true)
    (hrest : ∀ c cs2, rest = c :: cs2 → isNumChar c = false) :
    tryMatrixAt ("matrix".toList ++ ('(' :: (na ++ rest))) =
      (match parseSepNums 5 rest with
       | some (ns, r5) =>
         if closeParen? r5 then
           match ns with
           | [_, _, _, n5, n6] => some (n5, n6)
           | _ => none
         else none
       | none => none) := by
  unfold tryMatrixAt
  rw [if_pos ?pre]
  case pre =>
    rw [ List.isPrefixOf_iff_prefix]
    exact ⟨'(' :: (na ++ rest), rfl⟩
  rw [show ("matrix".toList ++ ('(' :: (na ++ rest))).drop 6 = '(' :: (na ++ rest) from by
    rw [show (6 : Nat) = ("matrix".toList).length from by decide, List.drop_left]]
  have h1 : List.dropWhile isPySpace ('(' :: (na ++ rest)) = '(' :: (na ++ rest) := by
    rw [List.dropWhile_cons, if_neg (by decide)]
  simp only []
  rw [h1]
  simp only []
  rw [dropWhile_space_of_num_head hne hall, takeWhile_run hall hrest,
    dropWhile_run hall hrest]
  rw [if_neg (by simpa using hne)]

theorem findMatrix_here {X : List Char} {g : List Char × List Char}
    (h : tryMatrixAt ("matrix".toList ++ X) = some g) :
    findMatrix ("matrix".toList ++ X) = some g := by
  rw [show "matrix".toList ++ X = 'm' :: ("atrix".toList ++ X) from rfl]
  simp only [findMatrix]
  rw [show ('m' :: ("atrix".toList ++ X)) = "matrix".toList ++ X from rfl, h]

theorem parse_transform_matrix {s1 s2 s3 s4 s5 s6 : String} {v1 v2 v3 v4 v5 v6 : ℚ}
    (h1 : NumToken s1 v1) (h2 : NumToken s2 v2) (h3 : NumToken s3 v3)
    (h4 : NumToken s4 v4) (h5 : NumToken s5 v5) (h6 : NumToken s6 v6) :
    parse_transform (some ("matrix(" ++ s1 ++ ", " ++ s2 ++ ", " ++ s3 ++ ", " ++ s4 ++
      ", " ++ s5 ++ ", " ++ s6 ++ ")")) = .ok (v5, v6) := by
  have hdata : ("matrix(" ++ s1 ++ ", " ++ s2 ++ ", " ++ s3 ++ ", " ++ s4 ++
      ", " ++ s5 ++ ", " ++ s6 ++ ")").toList
      = "matrix".toList ++ ('(' :: (s1.toList ++ (',' :: ' ' :: (s2.toList ++
        (',' :: ' ' :: (s3.toList ++ (',' :: ' ' :: (s4.toList ++
        (',' :: ' ' :: (s5.toList ++ (',' :: ' ' :: (s6.toList ++ [')'])))))))))))) := by
    simp only [String.toList]
    simp only [String.data_append]
    simp [List.append_assoc]
  have hp6 : parseSepNum (',' :: ' ' :: (s6.toList ++ [')'])) = some (s6.toList, [')']) :=
    parseSepNum_comma_space h6.ne_nil h6.chars (head_not_num_of_cons (by decide))
  have hp5 : parseSepNum (',' :: ' ' :: (s5.toList ++ (',' :: ' ' :: (s6.toList ++ [')'])))) =
      some (s5.toList, ',' :: ' ' :: (s6.toList ++ [')'])) :=
    parseSepNum_comma_space h5.ne_nil h5.chars (head_not_num_of_cons (by decide))
  have hp4 : parseSepNum (',' :: ' ' :: (s4.toList ++ (',' :: ' ' :: (s5.toList ++
      (',' :: ' ' :: (s6.toList ++ [')'])))))) =
      some (s4.toList, ',' :: ' ' :: (s5.toList ++ (',' :: ' ' :: (s6.toList ++ [')'])))) :=
    parseSepNum_comma_space h4.ne_nil h4.chars (head_not_num_of_cons (by decide))
  have hp3 : parseSepNum (',' :: ' ' :: (s3.toList ++ (',' :: ' ' :: (s4.toList ++
      (',' :: ' ' :: (s5.toList ++ (',' :: ' ' :: (s6.toList ++ [')'])))))))) =
      some (s3.toList, ',' :: ' ' :: (s4.toList ++ (',' :: ' ' :: (s5.toList ++
        (',' :: ' ' :: (s6.toList ++ [')'])))))) :=
    parseSepNum_comma_space h3.ne_nil h3.chars (head_not_num_of_cons (by decide))
  have hp2 : parseSepNum (',' :: ' ' :: (s2.toList ++ (',' :: ' ' :: (s3.toList ++
      (',' :: ' ' :: (s4.toList ++ (',' :: ' ' :: (s5.toList ++
      (',' :: ' ' :: (s6.toList ++ [')'])))))))))) =
      some (s2.toList, ',' :: ' ' :: (s3.toList ++ (',' :: ' ' :: (s4.toList ++
        (',' :: ' ' :: (s5.toList ++ (',' :: ' ' :: (s6.toList ++ [')'])))))))) :=
    parseSepNum_comma_space h2.ne_nil h2.chars (head_not_num_of_cons (by decide))
  have hseq : parseSepNums 5 (',' :: ' ' :: (s2.toList ++ (',' :: ' ' :: (s3.toList ++
      (',' :: ' ' :: (s4.toList ++ (',' :: ' ' :: (s5.toList ++
      (',' :: ' ' :: (s6.toList ++ [')'])))))))))) =
      some ([s2.toList, s3.toList, s4.toList, s5.toList, s6.toList], [')']) := by
    simp only [parseSepNums, hp2, hp3, hp4, hp5, hp6]
  have hm : tryMatrixAt ("matrix".toList ++ ('(' :: (s1.toList ++ (',' :: ' ' ::
      (s2.toList ++ (',' :: ' ' :: (s3.toList ++ (',' :: ' ' :: (s4.toList ++
      (',' :: ' ' :: (s5.toList ++ (',' :: ' ' :: (s6.toList ++ [')']))))))))))))) =
      some (s5.toList, s6.toList) := by
    rw [tryMatrixAt_eq h1.ne_nil h1.chars (head_not_num_of_cons (by decide)), hseq]
    simp only []
    rw [if_pos (by decide : closeParen? [')'] = true)]
  have hnoell : ∀ c ∈ "matrix".toList ++ ('(' :: (s1.toList ++ (',' :: ' ' ::
      (s2.toList ++ (',' :: ' ' :: (s3.toList ++ (',' :: ' ' :: (s4.toList ++
      (',' :: ' ' :: (s5.toList ++ (',' :: ' ' :: (s6.toList ++ [')'])))))))))))),
      c ≠ 'l' := by
    refine no_ell_append (by decide) (no_ell_cons (by decide) ?_)
    refine no_ell_append (fun c hc => ne_ell_of_num (h1.chars c hc)) ?_
    refine no_ell_cons (by decide) (no_ell_cons (by decide) ?_)
    refine no_ell_append (fun c hc => ne_ell_of_num (h2.chars c hc)) ?_
    refine no_ell_cons (by decide) (no_ell_cons (by decide) ?_)
    refine no_ell_append (fun c hc => ne_ell_of_num (h3.chars c hc)) ?_
    refine no_ell_cons (by decide) (no_ell_cons (by decide) ?_)
    refine no_ell_append (fun c hc => ne_ell_of_num (h4.chars c hc)) ?_
    refine no_ell_cons (by decide) (no_ell_cons (by decide) ?_)
    refine no_ell_append (fun c hc => ne_ell_of_num (h5.chars c hc)) ?_
    refine no_ell_cons (by decide) (no_ell_cons (by decide) ?_)
    exact no_ell_append (fun c hc => ne_ell_of_num (h6.chars c hc)) (by decide)
  unfold parse_transform
  simp only []
  rw [if_neg (parse_transform_cond_false hdata (by decide))]
  rw [hdata, findTranslate_eq_none_of_no_ell hnoell]
  simp only []
  rw [findMatrix_here hm]
  simp only []
  rw [h5.float]
  rw [h6.float]

/-- C4 counterexample: in translate(-) the regex matches with captured token
    "-", and float("-") raises ValueError; the claim's promised (0, 0) is not
    returned. -/
theorem c4_counterexample :
    parse_transform (some "translate(-)") = .error () ∧
    parse_transform (some "translate(-)") ≠ .ok (0, 0) :=
  ⟨by with_unfolding_all rfl, by with_unfolding_all decide⟩

/-- C4 amended: absence, emptiness or whitespace give (0, 0); translate with
    one numeric token gives (a, 0); translate with two tokens separated by a
    comma, a space or comma-space gives (a, b); matrix of six tokens gives the
    translation pair (e, f); unrecognized functions such as rotate and scale
    give (0, 0); but a matched numeric token that float() rejects raises
    ValueError (see the counterexample). -/
theorem c4_parse_transform (sa sb s1 s2 s3 s4 s5 s6 sep : String)
    (a b v1 v2 v3 v4 v5 v6 : ℚ)
    (ha : NumToken sa a) (hb : NumToken sb b)
    (hsep : sep = "," ∨ sep = " " ∨ sep = ", ")
    (h1 : NumToken s1 v1) (h2 : NumToken s2 v2) (h3 : NumToken s3 v3)
    (h4 : NumToken s4 v4) (h5 : NumToken s5 v5) (h6 : NumToken s6 v6) :
    parse_transform none = .ok (0, 0) ∧
    parse_transform (some "") = .ok (0, 0) ∧
    parse_transform (some "  ") = .ok (0, 0) ∧
    parse_transform (some ("translate(" ++ sa ++ ")")) = .ok (a, 0) ∧
    parse_transform (some ("translate(" ++ sa ++ sep ++ sb ++ ")")) = .ok (a, b) ∧
    parse_transform (some ("matrix(" ++ s1 ++ ", " ++ s2 ++ ", " ++ s3 ++ ", " ++ s4 ++
      ", " ++ s5 ++ ", " ++ s6 ++ ")")) = .ok (v5, v6) ∧
    parse_transform (some "rotate(30)") = .ok (0, 0) ∧
    parse_transform (some "scale(2 2)") = .ok (0, 0) :=
  ⟨by with_unfolding_all rfl, by with_unfolding_all rfl, by with_unfolding_all rfl,
   parse_transform_translate_single ha,
   parse_transform_translate_pair ha hb hsep,
   parse_transform_matrix h1 h2 h3 h4 h5 h6,
   by with_unfolding_all rfl, by with_unfolding_all rfl⟩

/-- C4 witness with negative and fractional tokens and a comma separator. -/
theorem c4_parse_transform_witness :
    parse_transform none = .ok (0, 0) ∧
    parse_transform (some "") = .ok (0, 0) ∧
    parse_transform (some "  ") = .ok (0, 0) ∧
    parse_transform (some ("translate(" ++ "-1.5" ++ ")")) = .ok (-(3 / 2), 0) ∧
    parse_transform (some ("translate(" ++ "-1.5" ++ "," ++ "2.25" ++ ")")) =
      .ok (-(3 / 2), 9 / 4) ∧
    parse_transform (some ("matrix(" ++ "1" ++ ", " ++ "2" ++ ", " ++ "3" ++ ", " ++ "4" ++
      ", " ++ "5" ++ ", " ++ "6" ++ ")")) = .ok (5, 6) ∧
    parse_transform (some "rotate(30)") = .ok (0, 0) ∧
    parse_transform (some "scale(2 2)") = .ok (0, 0) :=
  c4_parse_transform "-1.5" "2.25" "1" "2" "3" "4" "5" "6" ","
    (-(3 / 2)) (9 / 4) 1 2 3 4 5 6
    ⟨by decide, by decide, by with_unfolding_all rfl⟩
    ⟨by decide, by decide, by with_unfolding_all rfl⟩ (Or.inl rfl)
    ⟨by decide, by decide, by with_unfolding_all rfl⟩
    ⟨by decide, by decide, by with_unfolding_all rfl⟩
    ⟨by decide, by decide, by with_unfolding_all rfl⟩
    ⟨by decide, by decide, by with_unfolding_all rfl⟩
    ⟨by decide, by decide, by with_unfolding_all rfl⟩
    ⟨by decide, by decide, by with_unfolding_all rfl⟩

theorem walk_gWrap (vbx vby vbw vbh : ℚ) (pngW pngH : ℤ) (sa sb : String) (a b : ℚ)
    (ha : NumToken sa a) (hb : NumToken sb b) (inner : Element) (ctx cty : ℚ)
    (acc : List ComponentPosition) :
    walk vbx vby vbw vbh pngW pngH (gWrap sa sb inner) ctx cty acc =
      walk vbx vby vbw vbh pngW pngH inner (ctx + a) (cty + b) acc := by
  unfold gWrap
  have hget : (Element.mk "g" [("transform", "translate(" ++ sa ++ "," ++ sb ++ ")")]
      none (.cons inner .nil)).get "transform" =
      some ("translate(" ++ sa ++ "," ++ sb ++ ")") := rfl
  have hcl : (Element.mk "g" [("transform", "translate(" ++ sa ++ "," ++ sb ++ ")")]
      none (.cons inner .nil)).get "class" = none := rfl
  have hq : ¬ isQualifyingGroup (Element.mk "g"
      [("transform", "translate(" ++ sa ++ "," ++ sb ++ ")")] none (.cons inner .nil)) := by
    intro h
    have h2 := h.2
    rw [hcl] at h2
    exact absurd h2 (by with_unfolding_all decide)
  simp only [walk]
  rw [hget, parse_transform_translate_pair ha hb (Or.inl rfl)]
  simp only []
  rw [if_neg hq]
  simp only [walkList]
  cases hw : walk vbx vby vbw vbh pngW pngH inner (ctx + a) (cty + b) acc with
  | error e => rfl
  | ok acc2 => rfl

theorem walk_wrapChain (vbx vby vbw vbh : ℚ) (pngW pngH : ℤ)
    (tks : List ((String × String) × (ℚ × ℚ)))
    (htks : ∀ p ∈ tks, NumToken p.1.1 p.2.1 ∧ NumToken p.1.2 p.2.2)
    (el : Element) (ctx cty : ℚ) (acc : List ComponentPosition) :
    walk vbx vby vbw vbh pngW pngH (wrapChain (tks.map Prod.fst) el) ctx cty acc =
      walk vbx vby vbw vbh pngW pngH el (ctx + ((tks.map fun p => p.2.1).sum))
        (cty + ((tks.map fun p => p.2.2).sum)) acc := by
  induction tks generalizing ctx cty with
  | nil => simp [wrapChain]
  | cons p ps ih =>
    obtain ⟨⟨psa, psb⟩, pva, pvb⟩ := p
    simp only [List.map_cons, wrapChain, List.sum_cons]
    rw [walk_gWrap vbx vby vbw vbh pngW pngH psa psb pva pvb
      (htks ⟨⟨psa, psb⟩, pva, pvb⟩ (by simp)).1
      (htks ⟨⟨psa, psb⟩, pva, pvb⟩ (by simp)).2 _ ctx cty acc]
    rw [ih (fun q hq => htks q (by simp [hq]))]
    rw [add_assoc, add_assoc]

/-- C5: transforms accumulate additively in pre-order: a chain of
    translate-only groups around an element shifts the element's walk by the
    sum of all the translations, and the concrete nested document with node
    centre (10,10) inside translate(5,5) inside translate(100,0) resolves to
    output pixel (115, 15). -/
theorem c5_translation_accumulation
    (tks : List ((String × String) × (ℚ × ℚ)))
    (htks : ∀ p ∈ tks, NumToken p.1.1 p.2.1 ∧ NumToken p.1.2 p.2.2)
    (vbx vby vbw vbh : ℚ) (pngW pngH : ℤ) (el : Element) (ctx cty : ℚ)
    (acc : List ComponentPosition) :
    walk vbx vby vbw vbh pngW pngH (wrapChain (tks.map Prod.fst) el) ctx cty acc =
      walk vbx vby vbw vbh pngW pngH el (ctx + ((tks.map fun p => p.2.1).sum))
        (cty + ((tks.map fun p => p.2.2).sum)) acc ∧
    svg_to_component_positions nestedDoc 200 200 = .ok [⟨"K", "K", "K", 115, 15⟩] :=
  ⟨walk_wrapChain vbx vby vbw vbh pngW pngH tks htks el ctx cty acc,
   by with_unfolding_all rfl⟩

/-- C5 witness at the chain translate(100,0), translate(5,5) around a node. -/
theorem c5_translation_accumulation_witness :
    walk 0 0 200 200 200 200
      (wrapChain (([((("100", "0") : String × String), ((100 : ℚ), (0 : ℚ))),
        ((("5", "5") : String × String), ((5 : ℚ), (5 : ℚ)))].map Prod.fst))
        (elem "g" [("class", "node")] none
          [elem "rect" [("x", "5"), ("y", "5"), ("width", "10"), ("height", "10")] none []]))
      0 0 [] =
      walk 0 0 200 200 200 200
        (elem "g" [("class", "node")] none
          [elem "rect" [("x", "5"), ("y", "5"), ("width", "10"), ("height", "10")] none []])
        (0 + (([((("100", "0") : String × String), ((100 : ℚ), (0 : ℚ))),
          ((("5", "5") : String × String), ((5 : ℚ), (5 : ℚ)))].map fun p => p.2.1).sum))
        (0 + (([((("100", "0") : String × String), ((100 : ℚ), (0 : ℚ))),
          ((("5", "5") : String × String), ((5 : ℚ), (5 : ℚ)))].map fun p => p.2.2).sum))
        [] ∧
    svg_to_component_positions nestedDoc 200 200 = .ok [⟨"K", "K", "K", 115, 15⟩] :=
  c5_translation_accumulation
    [((("100", "0") : String × String), ((100 : ℚ), (0 : ℚ))),
     ((("5", "5") : String × String), ((5 : ℚ), (5 : ℚ)))]
    (by
      intro p hp
      rcases List.mem_cons.mp hp with h | h
      · subst h
        exact ⟨⟨by decide, by decide, by with_unfolding_all rfl⟩,
          ⟨by decide, by decide, by with_unfolding_all rfl⟩⟩
      · rcases List.mem_cons.mp h with h2 | h2
        · subst h2
          exact ⟨⟨by decide, by decide, by with_unfolding_all rfl⟩,
            ⟨by decide, by decide, by with_unfolding_all rfl⟩⟩
        · exact absurd h2 (by simp))
    0 0 200 200 200 200
    (elem "g" [("class", "node")] none
      [elem "rect" [("x", "5"), ("y", "5"), ("width", "10"), ("height", "10")] none []])
    0 0 []

mutual
theorem firstText_flatten : ∀ el : Element,
    firstText el = (iterList el).findSome? textProbe
  | .mk t a x children => by
    simp only [iterList, List.findSome?_cons]
    simp only [firstText, textProbe, Element.tag, Element.text, Element.children]
    by_cases hc : strip_ns t = "text" ∧ x.getD "" ≠ ""
    · rw [if_pos hc, if_pos hc]
      by_cases ht : pyStripStr (x.getD "") ≠ ""
      · rw [if_pos ht, if_pos ht]
      · rw [if_neg ht, if_neg ht]
        cases hf : firstChildText children with
        | some s => rfl
        | none => exact firstTextList_flatten children
    · rw [if_neg hc, if_neg hc]
      exact firstTextList_flatten children
theorem firstTextList_flatten : ∀ cs : ElemList,
    firstTextList cs = (iterSibs cs).findSome? textProbe
  | .nil => rfl
  | .cons c cs => by
    simp only [firstTextList, iterSibs, List.findSome?_append]
    rw [← firstText_flatten c, ← firstTextList_flatten cs]
    cases hf : firstText c with
    | some s => rfl
    | none => rfl
end

/-- C8 amended: the label extractor returns, over the document-order flattened
    subtree, the first text element with truthy direct text; a whitespace-only
    direct text resolves to the trimmed text of the first sub-span that has
    text, and if that text element contributes nothing the scan continues with
    later elements; the empty string results when nothing is found, and no
    fragments are ever concatenated. -/
theorem c8_text_content_flatten (el : Element) :
    get_text_content el = ((iterList el).findSome? textProbe).getD "" := by
  unfold get_text_content
  rw [firstText_flatten el]

/-- C8 witness at the sub-span document. -/
theorem c8_text_content_flatten_witness :
    get_text_content subSpanDoc = ((iterList subSpanDoc).findSome? textProbe).getD "" :=
  c8_text_content_flatten subSpanDoc

/-- C8 counterexample: the first text element has whitespace-only text and an
    empty first sub-span; the code returns the second sub-span's text "Hi",
    while the claimed first-sub-span rule returns "". -/
theorem c8_counterexample :
    get_text_content subSpanDoc = "Hi" ∧
    (claimTextFirstSubSpan subSpanDoc).getD "" = "" ∧
    ("Hi" : String) ≠ "" :=
  ⟨by with_unfolding_all rfl, by with_unfolding_all rfl, by decide⟩

mutual
theorem walk_length : ∀ (vbx vby vbw vbh : ℚ) (pngW pngH : ℤ) (el : Element)
    (ctx cty : ℚ) (acc ps : List ComponentPosition),
    walk vbx vby vbw vbh pngW pngH el ctx cty acc = .ok ps →
    ps.length = acc.length + qcount el
  | vbx, vby, vbw, vbh, pngW, pngH, .mk t a x children, ctx, cty, acc, ps => by
    intro h
    simp only [walk] at h
    cases hpt : parse_transform ((Element.mk t a x children).get "transform") with
    | error e => rw [hpt] at h; simp at h
    | ok tt =>
      rw [hpt] at h
      simp only [] at h
      simp only [qcount]
      by_cases hq : isQualifyingGroup (Element.mk t a x children)
      · rw [if_pos hq] at h
        rw [if_pos hq]
        cases hgb : get_group_bbox (Element.mk t a x children) with
        | error e => rw [hgb] at h; simp at h
        | ok ob =>
          rw [hgb] at h
          cases ob with
          | none =>
            simp only [] at h
            have h2 := walkList_length _ _ _ _ _ _ children _ _ _ _ h
            show ps.length = acc.length + (0 + qcountSibs children)
            omega
          | some b =>
            simp only [] at h
            have h2 := walkList_length _ _ _ _ _ _ children _ _ _ _ h
            simp only [List.length_append, List.length_cons, List.length_nil] at h2
            show ps.length = acc.length + (1 + qcountSibs children)
            omega
      · rw [if_neg hq] at h
        rw [if_neg hq]
        simp only [] at h
        have h2 := walkList_length _ _ _ _ _ _ children _ _ _ _ h
        omega
theorem walkList_length : ∀ (vbx vby vbw vbh : ℚ) (pngW pngH : ℤ) (cs : ElemList)
    (ctx cty : ℚ) (acc ps : List ComponentPosition),
    walkList vbx vby vbw vbh pngW pngH cs ctx cty acc = .ok ps →
    ps.length = acc.length + qcountSibs cs
  | vbx, vby, vbw, vbh, pngW, pngH, .nil, ctx, cty, acc, ps => by
    intro h
    simp only [walkList] at h
    injection h with h1
    rw [← h1]
    simp [qcountSibs]
  | vbx, vby, vbw, vbh, pngW, pngH, .cons c cs, ctx, cty, acc, ps => by
    intro h
    simp only [walkList] at h
    cases hw : walk vbx vby vbw vbh pngW pngH c ctx cty acc with
    | error e => rw [hw] at h; simp at h
    | ok acc2 =>
      rw [hw] at h
      simp only [] at h
      have h1 := walk_length _ _ _ _ _ _ c _ _ _ _ hw
      have h2 := walkList_length _ _ _ _ _ _ cs _ _ _ _ h
      simp only [qcountSibs]
      omega
end

/-- C9: when the walk succeeds it emits exactly one ComponentPosition per
    qualifying group (node or cluster class) that has a discoverable bounding
    box, and none for qualifying groups without one or for non-qualifying
    elements, whose children are still walked; in the document with a
    "cluster node" group and a shapeless node group, exactly one record
    results, with no error. -/
theorem c9_record_count (vbx vby vbw vbh : ℚ) (pngW pngH : ℤ) (el : Element)
    (ctx cty : ℚ) (acc ps : List ComponentPosition)
    (h : walk vbx vby vbw vbh pngW pngH el ctx cty acc = .ok ps) :
    ps.length = acc.length + qcount el ∧
    svg_to_component_positions clusterNodeDoc 100 100 = .ok [⟨"C", "C", "C", 20, 20⟩] :=
  ⟨walk_length vbx vby vbw vbh pngW pngH el ctx cty acc ps h,
   by with_unfolding_all rfl⟩

/-- C9 witness at the cluster-node document. -/
theorem c9_record_count_witness :
    ([⟨"C", "C", "C", 20, 20⟩] : List ComponentPosition).length =
      ([] : List ComponentPosition).length + qcount clusterNodeDoc ∧
    svg_to_component_positions clusterNodeDoc 100 100 = .ok [⟨"C", "C", "C", 20, 20⟩] :=
  c9_record_count 0 0 100 100 100 100 clusterNodeDoc 0 0 []
    [⟨"C", "C", "C", 20, 20⟩] (by with_unfolding_all rfl)
